import Mathlib

/-!
Verification of the tweet-x-deleter automation scripts.

The repository drives a browser session to bulk-delete X (Twitter) content
and to remove inactive followers.  Its core is a paginated scan-act-confirm
loop: take a structural snapshot of the page, extract candidate items from
the snapshot text, act on the first candidate, scroll, and repeat until a
configured number of consecutive empty scans.

This file gives a shallow embedding of the relevant source functions:
line-based snapshot scanning (findTweetElements, findMoreButtonInTweet,
findDeleteButton, findUnretweetButton, findUnretweetConfirmButton,
findConfirmButton), classification (isRepost), URL derivation
(getProfileUrl), the deleteContent pagination loop of the MCP variant, the
Playwright-variant ordinary deletion path, the follower-removal loop with
its processedUsernames set, and the isInactive threshold test.  Machine
interaction (clicks, dialogs, snapshot capture) is abstracted into an
environment that supplies the snapshot contents and the success of each
host-primitive call.
-/

namespace TweetDeleter

/-- The apostrophe character, one of the two quote characters accepted by
the `uid=["']...["']` pattern of the snapshot scanners. -/
def squote : Char := Char.ofNat 39

/-- `leadsWith pat hay` is true when `pat` is an initial segment of `hay`;
used to embed JavaScript's `String.prototype.includes`. -/
def leadsWith : List Char → List Char → Bool
  | [], _ => true
  | _ :: _, [] => false
  | p :: ps, c :: cs => p == c && leadsWith ps cs

/-- `hasSub hay pat` is true when `pat` occurs as a contiguous run inside
`hay`; the embedding of JavaScript's `includes` on the character level. -/
def hasSub : List Char → List Char → Bool
  | [], pat => pat.isEmpty
  | c :: cs, pat => leadsWith pat (c :: cs) || hasSub cs pat

/-- Embedding of `line.includes(pat)` from the scripts. -/
def strContains (s pat : String) : Bool :=
  hasSub s.toList pat.toList

/-- Whether a character is one of the quote characters of the character
class `["']` in the uid regular expression. -/
def isQuoteCh (c : Char) : Bool := c == '"' || c == squote

/-- Attempt to match the regular expression `uid=["']([^"']+)["']` at the
head of the character list, returning the capture group on success.  The
captured body is the maximal quote-free run, which must be non-empty and
must be closed by a quote character (the remaining characters after the
body are its `dropWhile`). -/
def uidTryAt (cs : List Char) : Option String :=
  match cs with
  | 'u' :: 'i' :: 'd' :: '=' :: q :: rest =>
    if isQuoteCh q then
      match rest.dropWhile (fun c => !(isQuoteCh c)) with
      | [] => none
      | _ :: _ =>
        if (rest.takeWhile (fun c => !(isQuoteCh c))).isEmpty then none
        else some (String.mk (rest.takeWhile (fun c => !(isQuoteCh c))))
    else none
  | _ => none

/-- Leftmost match of `uid=["']([^"']+)["']` in a character list: the
embedding of `line.match(/uid=["']([^"']+)["']/)` returning capture 1. -/
def uidScan : List Char → Option String
  | [] => none
  | c :: rest =>
    match uidTryAt (c :: rest) with
    | some u => some u
    | none => uidScan rest

/-- Attempt to match `ref="([^"]+)"` (the Playwright-variant handle
pattern) at the head of the character list. -/
def refTryAt (cs : List Char) : Option String :=
  match cs with
  | 'r' :: 'e' :: 'f' :: '=' :: '"' :: rest =>
    match rest.dropWhile (fun c => !(c == '"')) with
    | [] => none
    | _ :: _ =>
      if (rest.takeWhile (fun c => !(c == '"'))).isEmpty then none
      else some (String.mk (rest.takeWhile (fun c => !(c == '"'))))
  | _ => none

/-- Leftmost match of `ref="([^"]+)"`, returning capture 1. -/
def refScan : List Char → Option String
  | [] => none
  | c :: rest =>
    match refTryAt (c :: rest) with
    | some u => some u
    | none => refScan rest

/-- Accumulating character loop of `splitLines`. -/
def splitLinesAux : List Char → List Char → List String
  | [], acc => [String.mk acc.reverse]
  | c :: cs, acc =>
    if c = '\n' then String.mk acc.reverse :: splitLinesAux cs []
    else splitLinesAux cs (c :: acc)

/-- Embedding of JavaScript's `content.split('\n')`: the segments of the
string between newline characters. -/
def splitLines (s : String) : List String := splitLinesAux s.toList []

/-- A JavaScript value occupying the `content` field of a snapshot: absent
(`undef`), a string, or a representative non-string value (a number).
Truthiness follows JavaScript: `undef`, the empty string and `0` are
falsy. -/
inductive JsContent where
  | undef : JsContent
  | str : String → JsContent
  | num : Int → JsContent
deriving DecidableEq

/-- Embedding of `snapshot.content ? snapshot.content.split('\n') : []`
from the uid-based variants.  A truthy non-string content raises a
TypeError (`split` is not a function), embedded as `Except.error`. -/
def contentLines : JsContent → Except String (List String)
  | JsContent.undef => Except.ok []
  | JsContent.str s => if s = "" then Except.ok [] else Except.ok (splitLines s)
  | JsContent.num n =>
    if n = 0 then Except.ok [] else Except.error "TypeError: split is not a function"

/-- Embedding of the Playwright-variant content handling:
`const content = snapshot.content || snapshot || ''` followed by
`typeof content === 'string' ? content.split('\n') : []`.  A falsy
content field falls back to the snapshot object, which is not a string, so
every non-string case yields the empty line list and no case raises. -/
def contentLines3 : JsContent → List String
  | JsContent.str s => if s = "" then [] else splitLines s
  | _ => []

/-- A tweet record extracted by the uid-based `findTweetElements`: the
captured `uid` handle together with the raw line text. -/
structure Tweet where
  uid : String
  text : String
deriving DecidableEq

/-- A tweet record extracted by the Playwright-variant
`findTweetElements`: the captured `ref` handle and the raw line text. -/
structure Tweet3 where
  ref : String
  text : String
deriving DecidableEq

/-- Per-line body of the uid-based `findTweetElements`: a line yields a
tweet when it contains `article` and matches the uid pattern. -/
def extractTweets (ls : List String) : List Tweet :=
  ls.filterMap (fun line =>
    if strContains line "article" then
      match uidScan line.toList with
      | some u => some ⟨u, line⟩
      | none => none
    else none)

/-- Embedding of the uid-based `findTweetElements` (part_002 lines
68-90): split the content into lines and collect every line containing
`article` with a uid match.  Propagates the TypeError of a truthy
non-string content, which in the source is raised outside any try block. -/
def findTweetElements (c : JsContent) : Except String (List Tweet) :=
  (contentLines c).map extractTweets

/-- Per-line body of the Playwright-variant `findTweetElements`. -/
def extractTweets3 (ls : List String) : List Tweet3 :=
  ls.filterMap (fun line =>
    if strContains line "article" then
      match refScan line.toList with
      | some r => some ⟨r, line⟩
      | none => none
    else none)

/-- Embedding of the Playwright-variant `findTweetElements` (part_002
lines 1097-1122), total on every content value thanks to the
`typeof` guard. -/
def findTweetElements3 (c : JsContent) : List Tweet3 :=
  extractTweets3 (contentLines3 c)

/-- Embedding of `isRepost` (part_002 lines 152-159): a pure text-pattern
match on the raw line text of the tweet. -/
def isRepost (t : Tweet) : Bool :=
  !(t.text = "") &&
    (strContains t.text "Reposted" || strContains t.text "retweeted" ||
      strContains t.text "repost")

/-- Embedding of the `CONTENT_TYPES` table (part_002 lines 37-41). -/
def CONTENT_TYPES (contentType : String) : Option String :=
  if contentType = "POSTS" then some ""
  else if contentType = "REPLIES" then some "/with_replies"
  else if contentType = "REPOSTS" then some ""
  else none

/-- Embedding of `getProfileUrl` (part_002 lines 55-59): the base profile
URL plus the content-view suffix, where a missing table entry falls back
to the empty suffix via `CONTENT_TYPES[contentType] || ''`. -/
def getProfileUrl (username contentType : String) : String :=
  let baseUrl := "https://x.com/" ++ username
  let suffix :=
    match CONTENT_TYPES contentType with
    | some s => if s = "" then "" else s
    | none => ""
  baseUrl ++ suffix

/-- Line loop of `findMoreButtonInTweet` (part_002 lines 98-124).  The
flag is the `inTweetContext` variable: it is set when a line contains the
tweet's uid; a context line containing `More` or `caret` with a uid match
is returned; a context line containing `article` but not the tweet's uid
breaks the loop. -/
def findMoreAux (uid : String) : List String → Bool → Option String
  | [], _ => none
  | line :: rest, inCtx =>
    let inCtx2 := inCtx || strContains line uid
    match
      (if inCtx2 && (strContains line "More" || strContains line "caret") then
        uidScan line.toList
      else none) with
    | some u => some u
    | none =>
      if inCtx2 && strContains line "article" && !(strContains line uid) then none
      else findMoreAux uid rest inCtx2

/-- Embedding of `findMoreButtonInTweet` (part_002 lines 98-124): locate
the More/caret control inside the tweet's container scope. -/
def findMoreButtonInTweet (c : JsContent) (t : Tweet) : Except String (Option String) :=
  (contentLines c).map (fun ls => findMoreAux t.uid ls false)

/-- Line loop of `findUnretweetButton` (part_002 lines 341-363), the same
scoped scan as `findMoreAux` but looking for `unretweet`. -/
def findUnretAux (uid : String) : List String → Bool → Option String
  | [], _ => none
  | line :: rest, inCtx =>
    let inCtx2 := inCtx || strContains line uid
    match
      (if inCtx2 && strContains line "unretweet" then uidScan line.toList
      else none) with
    | some u => some u
    | none =>
      if inCtx2 && strContains line "article" && !(strContains line uid) then none
      else findUnretAux uid rest inCtx2

/-- Embedding of `findUnretweetButton` (part_002 lines 341-363). -/
def findUnretweetButton (c : JsContent) (t : Tweet) : Except String (Option String) :=
  (contentLines c).map (fun ls => findUnretAux t.uid ls false)

/-- Line scan of `findDeleteButton` (part_002 lines 131-145): the first
line containing `Delete` or `delete` with a uid match. -/
def scanDelete : List String → Option String
  | [] => none
  | line :: rest =>
    if strContains line "Delete" || strContains line "delete" then
      match uidScan line.toList with
      | some u => some u
      | none => scanDelete rest
    else scanDelete rest

/-- Embedding of `findDeleteButton` (part_002 lines 131-145). -/
def findDeleteButton (c : JsContent) : Except String (Option String) :=
  (contentLines c).map scanDelete

/-- Line scan of `findUnretweetConfirmButton` (part_002 lines 368-381):
the first line containing `Undo` with a uid match. -/
def scanUndo : List String → Option String
  | [] => none
  | line :: rest =>
    if strContains line "Undo" then
      match uidScan line.toList with
      | some u => some u
      | none => scanUndo rest
    else scanUndo rest

/-- Embedding of `findUnretweetConfirmButton` (part_002 lines 368-381). -/
def findUnretweetConfirmButton (c : JsContent) : Except String (Option String) :=
  (contentLines c).map scanUndo

/-- Line loop of the Playwright-variant `findMoreButtonInTweet`
(part_002 lines 1130-1157), identical scoping with `ref` handles. -/
def findMoreAux3 (ref : String) : List String → Bool → Option String
  | [], _ => none
  | line :: rest, inCtx =>
    let inCtx2 := inCtx || strContains line ref
    match
      (if inCtx2 && (strContains line "More" || strContains line "caret") then
        refScan line.toList
      else none) with
    | some u => some u
    | none =>
      if inCtx2 && strContains line "article" && !(strContains line ref) then none
      else findMoreAux3 ref rest inCtx2

/-- Embedding of the Playwright-variant `findMoreButtonInTweet`
(part_002 lines 1130-1157), total by the `typeof` guard. -/
def findMoreButtonInTweet3 (c : JsContent) (t : Tweet3) : Option String :=
  findMoreAux3 t.ref (contentLines3 c) false

/-- Line scan of the Playwright-variant `findDeleteButton` (part_002
lines 1164-1179). -/
def scanDelete3 : List String → Option String
  | [] => none
  | line :: rest =>
    if strContains line "Delete" || strContains line "delete" then
      match refScan line.toList with
      | some u => some u
      | none => scanDelete3 rest
    else scanDelete3 rest

/-- Embedding of the Playwright-variant `findDeleteButton` (part_002
lines 1164-1179). -/
def findDeleteButton3 (c : JsContent) : Option String :=
  scanDelete3 (contentLines3 c)

/-- Line scan of `findConfirmButton` (part_002 lines 1347-1364): a line
containing `confirmationSheetConfirm`, or containing both `Delete` and
`button`, with a ref match. -/
def scanConfirm : List String → Option String
  | [] => none
  | line :: rest =>
    if strContains line "confirmationSheetConfirm" ||
        (strContains line "Delete" && strContains line "button") then
      match refScan line.toList with
      | some u => some u
      | none => scanConfirm rest
    else scanConfirm rest

/-- Embedding of `findConfirmButton` (part_002 lines 1347-1364), the
confirmation-control lookup of the Playwright variant. -/
def findConfirmButton (c : JsContent) : Option String :=
  scanConfirm (contentLines3 c)

/-- The `inactiveDays` configuration value of the follower-removal
scripts. -/
def inactiveDays : ℚ := 180

/-- Embedding of `isInactive` (remove-inactive-followers.js lines 99-107,
part_001 lines 48-56): a `null` last-tweet date is never inactive;
otherwise the age in days, computed by exact division of the millisecond
difference, must exceed the threshold.  Times are in milliseconds. -/
def isInactive (now : ℚ) (lastTweetDate : Option ℚ) : Bool :=
  match lastTweetDate with
  | none => false
  | some d => decide (inactiveDays < (now - d) / (1000 * 60 * 60 * 24))

/-- The `MAX_EMPTY_ATTEMPTS` constant of `deleteContent` (part_002 line
184): the configured maximum of consecutive empty scans. -/
def MAX_EMPTY_ATTEMPTS : Nat := 3

/-- The environment supplying the host primitives to one `deleteContent`
run: the content of the snapshot captured at the top of scan cycle `c`
(`feed c`), the content of the snapshot captured mid-cycle after the
first click (`menu c`, the delete menu or the unretweet confirmation
sheet), and whether each host call of cycle `c` completes or raises: the
first click (`clickA`), the second click (`clickB`) and the dialog
accept (`dialogOk`). -/
structure Env where
  feed : Nat → JsContent
  menu : Nat → JsContent
  clickA : Nat → Bool
  clickB : Nat → Bool
  dialogOk : Nat → Bool

/-- Whether processing the first tweet of cycle `c` reaches the
`deletedCount++` statement of the MCP-variant `deleteContent` (part_002
lines 222-271).  Repost path: the unretweet control is found in the feed
snapshot, its click completes, the Undo control is found in the fresh
confirmation snapshot and its click completes.  Ordinary path: the More
control is found in the tweet's scope, its click completes, the Delete
control is found in the fresh menu snapshot, its click completes and the
confirmation dialog is accepted.  A raised error or a missing control
anywhere on the path is caught or skipped without incrementing. -/
def procSucceeds (env : Env) (c : Nat) (t : Tweet) : Bool :=
  if isRepost t then
    match findUnretweetButton (env.feed c) t with
    | Except.ok (some _) =>
      env.clickA c &&
        (match findUnretweetConfirmButton (env.menu c) with
          | Except.ok (some _) => env.clickB c
          | _ => false)
    | _ => false
  else
    match findMoreButtonInTweet (env.feed c) t with
    | Except.ok (some _) =>
      env.clickA c &&
        (match findDeleteButton (env.menu c) with
          | Except.ok (some _) => env.clickB c && env.dialogOk c
          | _ => false)
    | _ => false

/-- Result of a `deleteContent` run: `finished deleted cycles` when the
`while` loop breaks after `cycles` scan cycles with `deletedCount =
deleted`, or `crashed cycles` when `findTweetElements` raises outside the
per-item try block and aborts the run. -/
inductive RunResult where
  | finished : Nat → Nat → RunResult
  | crashed : Nat → RunResult
deriving DecidableEq

/-- Counter semantics of the MCP-variant `deleteContent` loop (part_002
lines 194-297), fuel-indexed.  Arguments: remaining fuel, current scan
cycle index `c`, current `deletedCount` and current
`consecutiveEmptyAttempts`.  An empty scan increments the empty counter
and terminates at `MAX_EMPTY_ATTEMPTS`; a non-empty scan resets the
empty counter, processes exactly the first tweet and increments
`deletedCount` when the whole action path completes.  Returns `none`
when the fuel runs out before the loop breaks. -/
def runCounts (env : Env) : Nat → Nat → Nat → Nat → Option RunResult
  | 0, _, _, _ => none
  | fuel + 1, c, deleted, empties =>
    match findTweetElements (env.feed c) with
    | Except.error _ => some (RunResult.crashed (c + 1))
    | Except.ok [] =>
      if MAX_EMPTY_ATTEMPTS ≤ empties + 1 then some (RunResult.finished deleted (c + 1))
      else runCounts env fuel (c + 1) deleted (empties + 1)
    | Except.ok (t :: _) =>
      runCounts env fuel (c + 1) (deleted + (if procSucceeds env c t then 1 else 0)) 0

/-- An observable host event of a run: a snapshot capture, or a click
whose handle was extracted from snapshot number `srcSid` (snapshots are
numbered in capture order, starting at 1). -/
inductive Ev where
  | snap : Ev
  | click : Nat → Ev
deriving DecidableEq

/-- The click and snapshot events emitted while processing the first
tweet of cycle `c` in the MCP-variant `deleteContent`, in source order.
`sidS` is the number of the feed snapshot of this cycle, from which the
tweet and its action control were extracted.  A second snapshot (the
delete menu or the unretweet confirmation sheet) is captured only after
the first click completes, and the second click uses a handle extracted
from that fresh snapshot. -/
def procEvents (env : Env) (c : Nat) (t : Tweet) (sidS : Nat) : List Ev :=
  if isRepost t then
    match findUnretweetButton (env.feed c) t with
    | Except.ok (some _) =>
      Ev.click sidS ::
        (if env.clickA c then
          Ev.snap ::
            (match findUnretweetConfirmButton (env.menu c) with
              | Except.ok (some _) => [Ev.click (sidS + 1)]
              | _ => [])
        else [])
    | _ => []
  else
    match findMoreButtonInTweet (env.feed c) t with
    | Except.ok (some _) =>
      Ev.click sidS ::
        (if env.clickA c then
          Ev.snap ::
            (match findDeleteButton (env.menu c) with
              | Except.ok (some _) => [Ev.click (sidS + 1)]
              | _ => [])
        else [])
    | _ => []

/-- Number of snapshot captures in an event list. -/
def snapCount : List Ev → Nat
  | [] => 0
  | Ev.snap :: r => snapCount r + 1
  | Ev.click _ :: r => snapCount r

/-- Event-trace semantics of the MCP-variant `deleteContent` loop:
the snapshot and click events of a run, in source order.  Arguments:
remaining fuel, current cycle index `c`, number of snapshots captured so
far `sid`, and the `consecutiveEmptyAttempts` counter. -/
def runTrace (env : Env) : Nat → Nat → Nat → Nat → List Ev
  | 0, _, _, _ => []
  | fuel + 1, c, sid, empties =>
    Ev.snap ::
      (match findTweetElements (env.feed c) with
      | Except.error _ => []
      | Except.ok [] =>
        if MAX_EMPTY_ATTEMPTS ≤ empties + 1 then []
        else runTrace env fuel (c + 1) (sid + 1) (empties + 1)
      | Except.ok (t :: _) =>
        procEvents env c t (sid + 1) ++
          runTrace env fuel (c + 1) (sid + 1 + snapCount (procEvents env c t (sid + 1))) 0)

/-- Checker for the handle-staleness property: scanning the trace with
`cur` = number of snapshots captured so far, every click must use a
handle whose source snapshot is not older than the latest capture. -/
def staleFree : List Ev → Nat → Bool
  | [], _ => true
  | Ev.snap :: r, cur => staleFree r (cur + 1)
  | Ev.click s :: r, cur => decide (cur ≤ s) && staleFree r cur

/-- Whether the ordinary deletion path of the Playwright-variant
`deleteContent` (part_002 lines 1277-1310) reaches its `deletedCount++`
statement, given the cycle's feed snapshot content, the menu snapshot
content, the confirmation snapshot content, the tweet, and whether each
of the three clicks completes.  In the source the increment sits after
the `if (confirmButtonRef)` block, so it also runs when the confirmation
control is not found. -/
def deleteFlowIncrements3 (feedC menuC confirmC : JsContent) (t : Tweet3)
    (clickMore clickDelete clickConfirm : Bool) : Bool :=
  match findMoreButtonInTweet3 feedC t with
  | none => false
  | some _ =>
    if clickMore then
      match findDeleteButton3 menuC with
      | none => false
      | some _ =>
        if clickDelete then
          match findConfirmButton confirmC with
          | some _ => clickConfirm
          | none => true
        else false
    else false

/-- Event trace of the inner `for (const tweet of tweets)` loop of the
skill document's `deleteTweets` pseudocode (part_000 lines 117-149) on
the success path, for `n` tweets extracted from the feed snapshot
numbered `sidS`: each iteration clicks the tweet's More control (a
handle from snapshot `sidS`), captures a fresh menu snapshot, and clicks
the Delete control extracted from that menu snapshot.  `cur` is the
number of snapshots captured so far. -/
def deleteTweetsInner (sidS : Nat) : Nat → Nat → List Ev
  | 0, _ => []
  | n + 1, cur =>
    Ev.click sidS :: Ev.snap :: Ev.click (cur + 1) :: deleteTweetsInner sidS n (cur + 1)

/-- Event trace of the `deleteTweets` pseudocode loop (part_000 lines
105-154): capture a snapshot, stop on the first empty scan, otherwise
run the inner loop over every tweet of that one snapshot, then scroll
and repeat.  `tweetCount c` is the number of tweets the cycle-`c`
snapshot yields. -/
def deleteTweetsTrace (tweetCount : Nat → Nat) : Nat → Nat → Nat → List Ev
  | 0, _, _ => []
  | fuel + 1, c, sid =>
    Ev.snap ::
      (match tweetCount c with
      | 0 => []
      | n + 1 =>
        deleteTweetsInner (sid + 1) (n + 1) (sid + 1) ++
          deleteTweetsTrace tweetCount fuel (c + 1) (sid + 1 + (n + 1)))

/-- Excluded link targets of the `getFollowerElements` username filter in
src/remove-inactive-followers.js (line 120). -/
def excludedNames : List String :=
  ["home", "explore", "notifications", "messages", "settings"]

/-- Excluded link targets in the part_001 variant (line 69), which also
excludes `i`. -/
def excludedNamesPop : List String :=
  ["home", "explore", "notifications", "messages", "settings", "i"]

/-- Whether an href matches `/^\/[^\/]+$/`: a leading slash followed by a
non-empty run without further slashes. -/
def hrefProfileMatch (h : String) : Bool :=
  match h.toList with
  | '/' :: rest => !rest.isEmpty && rest.all (fun c => !(c == '/'))
  | _ => false

/-- Per-cell username extraction of `getFollowerElements`
(remove-inactive-followers.js lines 114-128): the href must be truthy,
match the profile pattern, not contain `/status/`, and its tail must be a
non-empty username outside the excluded list. -/
def hrefUsername (excluded : List String) (href : String) : Option String :=
  if href = "" then none
  else if hrefProfileMatch href && !(strContains href "/status/") then
    let username := href.drop 1
    if !(username = "") && !(excluded.contains username) then some username else none
  else none

/-- Embedding of `getFollowerElements` of
src/remove-inactive-followers.js (lines 109-131): each cell contributes
the username of its first user link, with no deduplication.  A cell is
abstracted to the optional href of its first matching user link. -/
def getFollowerElements (cells : List (Option String)) : List String :=
  cells.filterMap (fun cell =>
    match cell with
    | some href => hrefUsername excludedNames href
    | none => none)

/-- The stateful `seen`-set filter of the part_001 `getFollowerElements`
(lines 79-85): keep the first occurrence of each username. -/
def dedupScan : List String → List String → List String
  | [], _ => []
  | u :: rest, seen =>
    if seen.contains u then dedupScan rest seen else u :: dedupScan rest (u :: seen)

/-- Embedding of the part_001 `getFollowerElements` (lines 58-86):
username extraction followed by deduplication by username. -/
def getFollowerElementsPop (cells : List (Option String)) : List String :=
  dedupScan
    (cells.filterMap (fun cell =>
      match cell with
      | some href => hrefUsername excludedNamesPop href
      | none => none))
    []

/-- The follower-removal `while` loop (remove-inactive-followers.js
lines 272-361, part_001 lines 210-317), abstracted over the per-cycle
page scan `scan c` (the usernames `getFollowerElements` yields at cycle
`c`).  Candidates already in `processedUsernames` are filtered out; on
an empty filtered list the empty counter increments and the loop breaks
at `maxEmptyAttempts = 3`; otherwise the first new follower's username
is added to the set and checked.  The returned list is the sequence of
checked usernames, in order. -/
def followerRun (scan : Nat → List String) :
    Nat → Nat → List String → Nat → List String
  | 0, _, _, _ => []
  | fuel + 1, c, processed, empties =>
    match (scan c).filter (fun u => !(processed.contains u)) with
    | [] =>
      if MAX_EMPTY_ATTEMPTS ≤ empties + 1 then []
      else followerRun scan fuel (c + 1) processed (empties + 1)
    | u :: _ => u :: followerRun scan fuel (c + 1) (u :: processed) 0

/-- A concrete environment whose feed yields one deletable ordinary
tweet on the first scan cycle and nothing afterwards, with every host
call succeeding: the tweet line carries a caret control and the menu
snapshot carries a Delete control. -/
def envOneGood : Env where
  feed := fun c =>
    if c = 0 then JsContent.str "article uid=\"t1\" caret" else JsContent.str ""
  menu := fun _ => JsContent.str "menuitem uid=\"d1\" Delete"
  clickA := fun _ => true
  clickB := fun _ => true
  dialogOk := fun _ => true

/-- A concrete environment whose single tweet offers no More/caret
control, so its processing is skipped: the per-item action fails on the
only candidate ever observed. -/
def envOneFail : Env where
  feed := fun c =>
    if c = 0 then JsContent.str "article uid=\"t1\"" else JsContent.str ""
  menu := fun _ => JsContent.str ""
  clickA := fun _ => true
  clickB := fun _ => true
  dialogOk := fun _ => true

/-- A concrete environment whose feed presents the same unprocessable
tweet on every scan cycle, as the live page does when a failed item is
re-rendered as the first candidate forever. -/
def envStuck : Env where
  feed := fun _ => JsContent.str "article uid=\"t1\""
  menu := fun _ => JsContent.str ""
  clickA := fun _ => true
  clickB := fun _ => true
  dialogOk := fun _ => true

/-- Termination of a `deleteContent` run: some fuel makes the pagination
loop break (reach `Terminated` or crash) rather than iterate forever. -/
def TerminatesRun (env : Env) : Prop :=
  ∃ fuel r, runCounts env fuel 0 0 0 = some r

/-! ## Simple functional claims -/

/-- C7: classification of a candidate is a deterministic, pure function
of its raw context text — two tweets with the same raw text classify the
same way — and a raw text containing none of the repost markers
(`Reposted`, `retweeted`, `repost`) is classified as an ordinary post. -/
theorem isRepost_deterministic_classification (t1 t2 : Tweet)
    (h : t1.text = t2.text) :
    isRepost t1 = isRepost t2 ∧
      ((strContains t1.text "Reposted" = false ∧
        strContains t1.text "retweeted" = false ∧
        strContains t1.text "repost" = false) → isRepost t1 = false) := by
  constructor
  · simp [isRepost, h]
  · rintro ⟨h1, h2, h3⟩
    simp [isRepost, h1, h2, h3]

/-- Witness for C7 at a concrete raw context with no repost marker. -/
theorem isRepost_deterministic_witness :
    isRepost ⟨"u1", "article hello"⟩ = isRepost ⟨"u2", "article hello"⟩ ∧
      isRepost ⟨"u1", "article hello"⟩ = false := by
  have h := isRepost_deterministic_classification ⟨"u1", "article hello"⟩
    ⟨"u2", "article hello"⟩ rfl
  exact ⟨h.1, h.2 (by refine ⟨?_, ?_, ?_⟩ <;> rfl)⟩

/-- C8: `getProfileUrl` is the base profile URL plus a content-view
suffix: empty for `POSTS`, the fixed segment `/with_replies` for
`REPLIES`, and empty again for any content type outside the table. -/
theorem getProfileUrl_suffix_table :
    (∀ u : String, getProfileUrl u "POSTS" = "https://x.com/" ++ u) ∧
    (∀ u : String,
      getProfileUrl u "REPLIES" = "https://x.com/" ++ u ++ "/with_replies") ∧
    (∀ u ct : String, ct ≠ "POSTS" → ct ≠ "REPLIES" → ct ≠ "REPOSTS" →
      getProfileUrl u ct = "https://x.com/" ++ u) := by
  refine ⟨fun u => ?_, fun u => ?_, fun u ct h1 h2 h3 => ?_⟩
  · simp [getProfileUrl, CONTENT_TYPES]
  · simp [getProfileUrl, CONTENT_TYPES]
  · simp [getProfileUrl, CONTENT_TYPES, h1, h2, h3]

/-- Witness for C8 at a concrete username and an out-of-table content
type. -/
theorem getProfileUrl_suffix_witness :
    getProfileUrl "alice" "POSTS" = "https://x.com/alice" ∧
    getProfileUrl "alice" "REPLIES" = "https://x.com/alice/with_replies" ∧
    getProfileUrl "alice" "LIKES" = "https://x.com/alice" := by
  have h := getProfileUrl_suffix_table
  refine ⟨?_, ?_, ?_⟩
  · rw [h.1 "alice"]; rfl
  · rw [h.2.1 "alice"]; rfl
  · rw [h.2.2 "alice" "LIKES" (by decide) (by decide) (by decide)]; rfl

/-- C9: a follower whose last activity date cannot be determined is never
classified inactive — `isInactive` is false on an absent date — and a
known date is inactive exactly when it is more than 180 days (in
milliseconds) in the past. -/
theorem isInactive_requires_known_old_date :
    (∀ now : ℚ, isInactive now none = false) ∧
    (∀ now d : ℚ,
      (isInactive now (some d) = true ↔ 180 * (1000 * 60 * 60 * 24) < now - d)) := by
  refine ⟨fun now => rfl, fun now d => ?_⟩
  rw [isInactive]
  rw [decide_eq_true_iff]
  rw [inactiveDays]
  rw [lt_div_iff₀ (by norm_num)]

/-! ## C6: totality of the candidate extractor -/

/-- C6 counterexample: on a snapshot whose `content` is a truthy
non-string value, the uid-based `findTweetElements` raises a TypeError
(`.split` is not a function) instead of returning a list. -/
theorem findTweetElements_raises_on_nonstring_content :
    findTweetElements (JsContent.num 1) =
      Except.error "TypeError: split is not a function" := rfl

/-- C6 as amended: the uid-based `findTweetElements` returns a (possibly
empty) list for every absent or string content — an empty result being an
ordinary value — and the `typeof`-guarded Playwright variant returns the
empty list even on non-string content. -/
theorem findTweetElements_total_on_string_content :
    (∀ s : String, ∃ ts : List Tweet,
      findTweetElements (JsContent.str s) = Except.ok ts) ∧
    findTweetElements JsContent.undef = Except.ok [] ∧
    (∀ n : Int, findTweetElements3 (JsContent.num n) = []) := by
  refine ⟨fun s => ?_, rfl, fun n => rfl⟩
  by_cases h : s = ""
  · exact ⟨[], by simp [findTweetElements, contentLines, h, Except.map, extractTweets]⟩
  · exact ⟨extractTweets (splitLines s),
      by simp [findTweetElements, contentLines, h, Except.map]⟩

/-! ## C4: container scoping of the action-control lookup -/

/-- A pattern is a leading segment of itself followed by anything. -/
theorem leadsWith_append_self (pat t : List Char) :
    leadsWith pat (pat ++ t) = true := by
  induction pat with
  | nil => rfl
  | cons p ps ih => simp [leadsWith, ih]

/-- The empty pattern occurs in every haystack. -/
theorem hasSub_nil_pat (hay : List Char) : hasSub hay [] = true := by
  cases hay with
  | nil => rfl
  | cons c cs => simp [hasSub, leadsWith]

/-- A contiguous run occurs in any list that contains it. -/
theorem hasSub_append_self (pre pat post : List Char) :
    hasSub (pre ++ (pat ++ post)) pat = true := by
  induction pre with
  | nil =>
    cases pat with
    | nil => simpa using hasSub_nil_pat post
    | cons p ps =>
      have hlead : leadsWith (p :: ps) ((p :: ps) ++ post) = true :=
        leadsWith_append_self (p :: ps) post
      rw [List.cons_append] at hlead
      simp [hasSub, hlead]
  | cons c cs ih => simp [hasSub, ih]

/-- A uid captured by the pattern matcher at the head of a character list
occurs as a contiguous run of that list. -/
theorem uidTryAt_hasSub (cs : List Char) (u : String)
    (h : uidTryAt cs = some u) : hasSub cs u.toList = true := by
  unfold uidTryAt at h
  split at h
  case h_2 => exact absurd h (by simp)
  case h_1 q rest =>
    split at h
    case isFalse => exact absurd h (by simp)
    case isTrue hq =>
      split at h
      case h_1 => exact absurd h (by simp)
      case h_2 =>
        split at h
        case isTrue => exact absurd h (by simp)
        case isFalse hne =>
          have hu : u = String.mk (rest.takeWhile (fun c => !(isQuoteCh c))) := by
            have h2 := h
            simp at h2
            exact h2.symm
          subst hu
          have hgoal : (String.mk (rest.takeWhile (fun c => !(isQuoteCh c)))).toList =
              rest.takeWhile (fun c => !(isQuoteCh c)) := rfl
          rw [hgoal]
          generalize hb : rest.takeWhile (fun c => !(isQuoteCh c)) = body
          have hpost : rest = body ++ rest.dropWhile (fun c => !(isQuoteCh c)) := by
            rw [← hb]
            exact (List.takeWhile_append_dropWhile _ _).symm
          rw [hpost]
          exact hasSub_append_self ['u', 'i', 'd', '=', q] body _

/-- A uid captured anywhere in a character list occurs as a contiguous run
of that list. -/
theorem uidScan_hasSub : ∀ (cs : List Char) (u : String),
    uidScan cs = some u → hasSub cs u.toList = true := by
  intro cs
  induction cs with
  | nil => intro u h; simp [uidScan] at h
  | cons c rest ih =>
    intro u h
    rw [uidScan] at h
    cases htry : uidTryAt (c :: rest) with
    | some v =>
      rw [htry] at h
      have hvu : v = u := by simpa using h
      subst hvu
      exact uidTryAt_hasSub (c :: rest) v htry
    | none =>
      rw [htry] at h
      have hrec := ih u h
      simp only [hasSub, hrec, Bool.or_true]

/-- A line whose uid pattern captures `u` contains `u` as a substring. -/
theorem uidScan_strContains (l u : String) (h : uidScan l.toList = some u) :
    strContains l u = true :=
  uidScan_hasSub l.toList u h

/-- One step of the `findMoreButtonInTweet` line loop: a result produced
on a cons either comes from the head line's uid pattern or from the
recursive scan of the remaining lines with the updated context flag. -/
theorem findMoreAux_cons (uid u line : String) (rest : List String) (b : Bool)
    (h : findMoreAux uid (line :: rest) b = some u) :
    uidScan line.toList = some u ∨
      findMoreAux uid rest (b || strContains line uid) = some u := by
  simp only [findMoreAux] at h
  by_cases hcond : ((b || strContains line uid) &&
      (strContains line "More" || strContains line "caret")) = true
  · rw [if_pos hcond] at h
    cases hscan : uidScan line.toList with
    | some v =>
      rw [hscan] at h
      have hvu : some v = some u := by simpa using h
      exact Or.inl hvu
    | none =>
      rw [hscan] at h
      simp only [] at h
      by_cases hbr : ((b || strContains line uid) && strContains line "article" &&
          !(strContains line uid)) = true
      · rw [if_pos hbr] at h; exact absurd h (by simp)
      · rw [if_neg hbr] at h; exact Or.inr h
  · rw [if_neg hcond] at h
    simp only [] at h
    by_cases hbr : ((b || strContains line uid) && strContains line "article" &&
        !(strContains line uid)) = true
    · rw [if_pos hbr] at h; exact absurd h (by simp)
    · rw [if_neg hbr] at h; exact Or.inr h

/-- Every uid returned by the `findMoreButtonInTweet` line loop is
captured from one of the scanned lines. -/
theorem findMoreAux_mem (uid u : String) :
    ∀ (L : List String) (b : Bool), findMoreAux uid L b = some u →
      ∃ l ∈ L, uidScan l.toList = some u := by
  intro L
  induction L with
  | nil => intro b h; simp [findMoreAux] at h
  | cons line rest ih =>
    intro b h
    cases findMoreAux_cons uid u line rest b h with
    | inl hl => exact ⟨line, List.mem_cons_self line rest, hl⟩
    | inr hr =>
      obtain ⟨l, hl, hu⟩ := ih _ hr
      exact ⟨l, List.mem_cons_of_mem line hl, hu⟩

/-- Once the context flag is set, the line loop never reads past a
barrier line that marks the next container (`article` without the
tweet's uid) and offers no More/caret control: any result is captured
from a line before the barrier. -/
theorem findMoreAux_barrier (uid u bLine : String) (rest : List String)
    (hart : strContains bLine "article" = true)
    (huid : strContains bLine uid = false)
    (hm : strContains bLine "More" = false)
    (hc : strContains bLine "caret" = false) :
    ∀ L : List String, findMoreAux uid (L ++ bLine :: rest) true = some u →
      ∃ l ∈ L, uidScan l.toList = some u := by
  intro L
  induction L with
  | nil =>
    intro h
    rw [List.nil_append] at h
    simp [findMoreAux, hart, huid, hm, hc] at h
  | cons l L ih =>
    intro h
    rw [List.cons_append] at h
    cases findMoreAux_cons uid u l (L ++ bLine :: rest) true h with
    | inl hl => exact ⟨l, List.mem_cons_self l L, hl⟩
    | inr hr =>
      rw [Bool.true_or] at hr
      obtain ⟨x, hx, hu⟩ := ih hr
      exact ⟨x, List.mem_cons_of_mem l hx, hu⟩

/-- A line that does not mention the tweet's uid, scanned with the
context flag unset, contributes nothing and leaves the flag unset. -/
theorem findMoreAux_cons_unset (uid line : String) (rest : List String)
    (hl : strContains line uid = false) :
    findMoreAux uid (line :: rest) false = findMoreAux uid rest false := by
  simp [findMoreAux, hl]

/-- Lines that never mention the tweet's uid leave the context flag unset
and contribute nothing: the scan continues behind them unchanged. -/
theorem findMoreAux_skip (uid : String) (M : List String) :
    ∀ L : List String, (∀ l ∈ L, strContains l uid = false) →
      findMoreAux uid (L ++ M) false = findMoreAux uid M false := by
  intro L
  induction L with
  | nil => intro _; rw [List.nil_append]
  | cons l L ih =>
    intro hL
    rw [List.cons_append,
      findMoreAux_cons_unset uid l (L ++ M) (hL l (List.mem_cons_self l L))]
    exact ih (fun x hx => hL x (List.mem_cons_of_mem l hx))

/-- C4: in a snapshot holding two adjacent item containers — container A
opened by `aLine` (carrying A's uid) with body `aBody`, container B
opened by the next container marker `bLine` with body `bBody` — the
action-control lookup for A never returns B's control handle `uB`, and
the lookup for B never returns A's control handle `uA`: the scan for A
stops at the next container marker, and the scan for B only sets its
context flag from B's own container on. -/
theorem findMoreButton_scoped_to_container
    (tA tB : Tweet) (uB uA : String) (aLine bLine : String)
    (aBody bBody : List String) (snap : JsContent)
    (hsnap : contentLines snap = Except.ok (aLine :: (aBody ++ bLine :: bBody)))
    (haA : strContains aLine tA.uid = true)
    (hart : strContains bLine "article" = true)
    (hbA : strContains bLine tA.uid = false)
    (hbM : strContains bLine "More" = false)
    (hbC : strContains bLine "caret" = false)
    (hUB : ∀ l ∈ aLine :: aBody, strContains l uB = false)
    (hBuid : ∀ l ∈ aLine :: aBody, strContains l tB.uid = false)
    (hUA : ∀ l ∈ bLine :: bBody, strContains l uA = false) :
    findMoreButtonInTweet snap tA ≠ Except.ok (some uB) ∧
    findMoreButtonInTweet snap tB ≠ Except.ok (some uA) := by
  constructor
  · intro h
    rw [findMoreButtonInTweet, hsnap] at h
    simp only [Except.map, Except.ok.injEq] at h
    cases findMoreAux_cons tA.uid uB aLine (aBody ++ bLine :: bBody) false h with
    | inl hl =>
      have hcontra := uidScan_strContains aLine uB hl
      rw [hUB aLine (List.mem_cons_self aLine aBody)] at hcontra
      exact absurd hcontra (by simp)
    | inr hr =>
      rw [haA, Bool.or_true] at hr
      obtain ⟨l, hl, hu⟩ := findMoreAux_barrier tA.uid uB bLine bBody hart hbA hbM hbC aBody hr
      have hcontra := uidScan_strContains l uB hu
      rw [hUB l (List.mem_cons_of_mem aLine hl)] at hcontra
      exact absurd hcontra (by simp)
  · intro h
    rw [findMoreButtonInTweet, hsnap] at h
    simp only [Except.map, Except.ok.injEq] at h
    rw [show aLine :: (aBody ++ bLine :: bBody) =
        (aLine :: aBody) ++ bLine :: bBody from rfl] at h
    rw [findMoreAux_skip tB.uid (bLine :: bBody) (aLine :: aBody) hBuid] at h
    obtain ⟨l, hl, hu⟩ := findMoreAux_mem tB.uid uA (bLine :: bBody) false h
    have hcontra := uidScan_strContains l uA hu
    rw [hUA l hl] at hcontra
    exact absurd hcontra (by simp)

/-- Witness for C4: a concrete four-line snapshot with two adjacent
containers, each holding one nested caret control. -/
theorem findMoreButton_scoped_witness :
    findMoreButtonInTweet
        (JsContent.str
          "article uid=\"t1\"\ncaret uid=\"c1\"\narticle uid=\"t2\"\ncaret uid=\"c2\"")
        ⟨"t1", "article uid=\"t1\""⟩ ≠ Except.ok (some "c2") ∧
    findMoreButtonInTweet
        (JsContent.str
          "article uid=\"t1\"\ncaret uid=\"c1\"\narticle uid=\"t2\"\ncaret uid=\"c2\"")
        ⟨"t2", "article uid=\"t2\""⟩ ≠ Except.ok (some "c1") := by
  exact findMoreButton_scoped_to_container
    ⟨"t1", "article uid=\"t1\""⟩ ⟨"t2", "article uid=\"t2\""⟩ "c2" "c1"
    "article uid=\"t1\"" "article uid=\"t2\""
    ["caret uid=\"c1\""] ["caret uid=\"c2\""]
    (JsContent.str
      "article uid=\"t1\"\ncaret uid=\"c1\"\narticle uid=\"t2\"\ncaret uid=\"c2\"")
    (by rfl) (by rfl) (by rfl) (by rfl) (by rfl) (by rfl)
    (by decide) (by decide) (by decide)

/-! ## C3: the Playwright ordinary path counts success without
confirmation -/

/-- C3: evaluating the Playwright-variant ordinary deletion path at a
cycle whose confirmation snapshot contains no confirmation control:
`findConfirmButton` returns no handle, yet the path reaches
`deletedCount++`, counting the item as deleted without any confirmation
click. -/
theorem playwright_increments_without_confirm :
    deleteFlowIncrements3 (JsContent.str "article ref=\"t1\" caret")
      (JsContent.str "menuitem Delete ref=\"d1\"")
      (JsContent.str "no confirm control here")
      ⟨"t1", "article ref=\"t1\" caret"⟩ true true true = true ∧
    findConfirmButton (JsContent.str "no confirm control here") = none :=
  ⟨by rfl, by rfl⟩

/-! ## C1 and C2: pagination-loop termination -/

/-- Zero fuel yields no result. -/
theorem runCounts_zero (env : Env) (c d e : Nat) : runCounts env 0 c d e = none := rfl

/-- One unfolding of the pagination loop. -/
theorem runCounts_succ (env : Env) (fuel c d e : Nat) :
    runCounts env (fuel + 1) c d e =
      match findTweetElements (env.feed c) with
      | Except.error _ => some (RunResult.crashed (c + 1))
      | Except.ok [] =>
        if MAX_EMPTY_ATTEMPTS ≤ e + 1 then some (RunResult.finished d (c + 1))
        else runCounts env fuel (c + 1) d (e + 1)
      | Except.ok (t :: _) =>
        runCounts env fuel (c + 1) (d + (if procSucceeds env c t then 1 else 0)) 0 := rfl

/-- An empty scan below the maximum increments the empty counter and
scrolls on. -/
theorem runCounts_empty_step (env : Env) (fuel c d e : Nat)
    (h : findTweetElements (env.feed c) = Except.ok [])
    (he : e + 1 < MAX_EMPTY_ATTEMPTS) :
    runCounts env (fuel + 1) c d e = runCounts env fuel (c + 1) d (e + 1) := by
  rw [runCounts_succ, h]
  have hn : ¬ (MAX_EMPTY_ATTEMPTS ≤ e + 1) := by omega
  simp [hn]

/-- An empty scan at the maximum terminates the run. -/
theorem runCounts_empty_stop (env : Env) (fuel c d e : Nat)
    (h : findTweetElements (env.feed c) = Except.ok [])
    (he : MAX_EMPTY_ATTEMPTS ≤ e + 1) :
    runCounts env (fuel + 1) c d e = some (RunResult.finished d (c + 1)) := by
  rw [runCounts_succ, h]
  simp [he]

/-- A non-empty scan resets the empty counter and acts on the first
candidate. -/
theorem runCounts_act_step (env : Env) (fuel c d e : Nat) (t : Tweet) (ts : List Tweet)
    (h : findTweetElements (env.feed c) = Except.ok (t :: ts)) :
    runCounts env (fuel + 1) c d e =
      runCounts env fuel (c + 1) (d + (if procSucceeds env c t then 1 else 0)) 0 := by
  rw [runCounts_succ, h]

/-- Pagination-loop run over a feed that yields a candidate with uniform
per-item outcome `b` for `K` cycles starting at cycle `c`, then stays
empty: the loop terminates after exactly `K + MAX_EMPTY_ATTEMPTS` scan
cycles, adding `K` deletions when `b` is true and none when it is
false. -/
theorem runCounts_uniform_aux (env : Env) (b : Bool) :
    ∀ (K c d : Nat),
      (∀ i, i < K → ∃ t ts, findTweetElements (env.feed (c + i)) = Except.ok (t :: ts) ∧
        procSucceeds env (c + i) t = b) →
      (∀ i, findTweetElements (env.feed (c + K + i)) = Except.ok []) →
      runCounts env (K + MAX_EMPTY_ATTEMPTS) c d 0 =
        some (RunResult.finished (d + (if b then K else 0))
          (c + K + MAX_EMPTY_ATTEMPTS)) := by
  intro K
  induction K with
  | zero =>
    intro c d _ hEmpty
    have h0 : findTweetElements (env.feed c) = Except.ok [] := by
      have := hEmpty 0
      rwa [show c + 0 + 0 = c from by omega] at this
    have h1 : findTweetElements (env.feed (c + 1)) = Except.ok [] := by
      have := hEmpty 1
      rwa [show c + 0 + 1 = c + 1 from by omega] at this
    have h2 : findTweetElements (env.feed (c + 2)) = Except.ok [] := by
      have := hEmpty 2
      rwa [show c + 0 + 2 = c + 2 from by omega] at this
    calc runCounts env (0 + MAX_EMPTY_ATTEMPTS) c d 0
        = runCounts env (2 + 1) c d 0 := rfl
      _ = runCounts env (1 + 1) (c + 1) d 1 :=
          runCounts_empty_step env 2 c d 0 h0 (by decide)
      _ = runCounts env (0 + 1) (c + 2) d 2 :=
          runCounts_empty_step env 1 (c + 1) d 1 h1 (by decide)
      _ = some (RunResult.finished d (c + 2 + 1)) :=
          runCounts_empty_stop env 0 (c + 2) d 2 h2 (by decide)
      _ = some (RunResult.finished (d + (if b then 0 else 0))
            (c + 0 + MAX_EMPTY_ATTEMPTS)) := by
          have h1 : d + (if b then 0 else 0) = d := by cases b <;> simp
          have h2 : c + 0 + MAX_EMPTY_ATTEMPTS = c + 2 + 1 := by
            have hmax : MAX_EMPTY_ATTEMPTS = 3 := rfl
            omega
          rw [h1, h2]
  | succ K ih =>
    intro c d hGood hEmpty
    obtain ⟨t, ts, hfeed, hsucc⟩ := hGood 0 (by omega)
    rw [show c + 0 = c from by omega] at hfeed hsucc
    have hstep := runCounts_act_step env (K + MAX_EMPTY_ATTEMPTS) c d 0 t ts hfeed
    have hGood2 : ∀ i, i < K →
        ∃ t2 ts2, findTweetElements (env.feed (c + 1 + i)) = Except.ok (t2 :: ts2) ∧
          procSucceeds env (c + 1 + i) t2 = b := by
      intro i hi
      have := hGood (i + 1) (by omega)
      rwa [show c + (i + 1) = c + 1 + i from by omega] at this
    have hEmpty2 : ∀ i, findTweetElements (env.feed (c + 1 + K + i)) = Except.ok [] := by
      intro i
      have := hEmpty i
      rwa [show c + (K + 1) + i = c + 1 + K + i from by omega] at this
    have hrec := ih (c + 1) (d + (if procSucceeds env c t then 1 else 0)) hGood2 hEmpty2
    calc runCounts env (K + 1 + MAX_EMPTY_ATTEMPTS) c d 0
        = runCounts env ((K + MAX_EMPTY_ATTEMPTS) + 1) c d 0 := rfl
      _ = runCounts env (K + MAX_EMPTY_ATTEMPTS) (c + 1)
            (d + (if procSucceeds env c t then 1 else 0)) 0 := hstep
      _ = some (RunResult.finished
            ((d + (if procSucceeds env c t then 1 else 0)) + (if b then K else 0))
            (c + 1 + K + MAX_EMPTY_ATTEMPTS)) := hrec
      _ = some (RunResult.finished (d + (if b then K + 1 else 0))
            (c + (K + 1) + MAX_EMPTY_ATTEMPTS)) := by
          rw [hsucc]
          have h1 : (d + (if b then 1 else 0)) + (if b then K else 0) =
              d + (if b then K + 1 else 0) := by
            cases b <;> simp
            omega
          have h2 : c + 1 + K + MAX_EMPTY_ATTEMPTS =
              c + (K + 1) + MAX_EMPTY_ATTEMPTS := by omega
          rw [h1, h2]

/-- C1: over a feed that yields a non-empty candidate list for exactly
`K` consecutive scan cycles and an empty list forever after, with every
per-item action succeeding, the `deleteContent` pagination loop
terminates after exactly `K + MAX_EMPTY_ATTEMPTS` scan cycles (the
maximum defaulting to 3) with `deletedCount = K`. -/
theorem deleteContent_terminates_in_K_plus_max (env : Env) (K : Nat)
    (hGood : ∀ i, i < K →
      ∃ t ts, findTweetElements (env.feed i) = Except.ok (t :: ts) ∧
        procSucceeds env i t = true)
    (hEmpty : ∀ i, K ≤ i → findTweetElements (env.feed i) = Except.ok []) :
    runCounts env (K + MAX_EMPTY_ATTEMPTS) 0 0 0 =
      some (RunResult.finished K (K + MAX_EMPTY_ATTEMPTS)) := by
  have h := runCounts_uniform_aux env true K 0 0
    (by intro i hi; simpa using hGood i hi)
    (by intro i; have := hEmpty (K + i) (by omega); simpa using this)
  simpa using h

/-- Witness for C1: the concrete one-good-tweet environment terminates
after `1 + 3` scan cycles with one deletion. -/
theorem deleteContent_terminates_witness :
    runCounts envOneGood (1 + MAX_EMPTY_ATTEMPTS) 0 0 0 =
      some (RunResult.finished 1 (1 + MAX_EMPTY_ATTEMPTS)) := by
  apply deleteContent_terminates_in_K_plus_max envOneGood 1
  · intro i hi
    have hi0 : i = 0 := by omega
    subst hi0
    exact ⟨⟨"t1", "article uid=\"t1\" caret"⟩, [], by rfl, by rfl⟩
  · intro i hi
    have hne : ¬ (i = 0) := by omega
    show findTweetElements (if i = 0 then JsContent.str "article uid=\"t1\" caret"
      else JsContent.str "") = Except.ok []
    rw [if_neg hne]
    rfl

/-- C2 as amended: over a feed that yields candidates for exactly `K`
cycles then stays empty, with the per-item action failing on every
candidate, the loop still reaches its terminated state — errors are
caught at the per-item boundary — after `K + MAX_EMPTY_ATTEMPTS` scan
cycles with `deletedCount = 0` (the source keeps no failed counter; a
failure leaves the count untouched and is only logged). -/
theorem deleteContent_all_fail_terminates (env : Env) (K : Nat)
    (hFail : ∀ i, i < K →
      ∃ t ts, findTweetElements (env.feed i) = Except.ok (t :: ts) ∧
        procSucceeds env i t = false)
    (hEmpty : ∀ i, K ≤ i → findTweetElements (env.feed i) = Except.ok []) :
    runCounts env (K + MAX_EMPTY_ATTEMPTS) 0 0 0 =
      some (RunResult.finished 0 (K + MAX_EMPTY_ATTEMPTS)) := by
  have h := runCounts_uniform_aux env false K 0 0
    (by intro i hi; simpa using hFail i hi)
    (by intro i; have := hEmpty (K + i) (by omega); simpa using this)
  simpa using h

/-- Witness for C2's amended statement: the concrete environment whose
single candidate has no More control terminates with zero deletions. -/
theorem deleteContent_all_fail_witness :
    runCounts envOneFail (1 + MAX_EMPTY_ATTEMPTS) 0 0 0 =
      some (RunResult.finished 0 (1 + MAX_EMPTY_ATTEMPTS)) := by
  apply deleteContent_all_fail_terminates envOneFail 1
  · intro i hi
    have hi0 : i = 0 := by omega
    subst hi0
    exact ⟨⟨"t1", "article uid=\"t1\""⟩, [], by rfl, by rfl⟩
  · intro i hi
    have hne : ¬ (i = 0) := by omega
    show findTweetElements (if i = 0 then JsContent.str "article uid=\"t1\""
      else JsContent.str "") = Except.ok []
    rw [if_neg hne]
    rfl

/-- Over the stuck feed the loop never breaks: every cycle finds the
same unprocessable candidate, resets the empty counter, and recurses. -/
theorem runCounts_envStuck_none :
    ∀ (fuel c d : Nat), runCounts envStuck fuel c d 0 = none := by
  intro fuel
  induction fuel with
  | zero => intro c d; rfl
  | succ fuel ih =>
    intro c d
    have hfeed : findTweetElements (envStuck.feed c) =
        Except.ok [⟨"t1", "article uid=\"t1\""⟩] := rfl
    rw [runCounts_act_step envStuck fuel c d 0 _ _ hfeed]
    exact ih (c + 1) _

/-- C2 counterexample: with the per-item action failing on every
candidate of a feed that keeps presenting the failed item (the natural
behaviour of a page whose item is never removed), the pagination loop
does not reach a terminated state for any amount of fuel: the claim's
unconditional termination is false. -/
theorem deleteContent_nonterminating_on_persistent_failure :
    ¬ TerminatesRun envStuck := by
  rintro ⟨fuel, r, h⟩
  rw [runCounts_envStuck_none fuel 0 0] at h
  exact Option.noConfusion h

/-! ## C5: no cross-snapshot handle reuse -/

/-- One unfolding of the trace semantics. -/
theorem runTrace_succ (env : Env) (fuel c sid e : Nat) :
    runTrace env (fuel + 1) c sid e =
      Ev.snap ::
        (match findTweetElements (env.feed c) with
        | Except.error _ => []
        | Except.ok [] =>
          if MAX_EMPTY_ATTEMPTS ≤ e + 1 then []
          else runTrace env fuel (c + 1) (sid + 1) (e + 1)
        | Except.ok (t :: _) =>
          procEvents env c t (sid + 1) ++
            runTrace env fuel (c + 1)
              (sid + 1 + snapCount (procEvents env c t (sid + 1))) 0) := rfl

/-- The staleness checker distributes over concatenation, advancing the
snapshot counter by the number of captures in the first part. -/
theorem staleFree_append (l1 l2 : List Ev) :
    ∀ cur, staleFree (l1 ++ l2) cur =
      (staleFree l1 cur && staleFree l2 (cur + snapCount l1)) := by
  induction l1 with
  | nil => intro cur; simp [staleFree, snapCount]
  | cons e r ih =>
    intro cur
    cases e with
    | snap =>
      rw [List.cons_append]
      simp only [staleFree, snapCount]
      rw [ih (cur + 1)]
      have harith : cur + 1 + snapCount r = cur + (snapCount r + 1) := by omega
      rw [harith]
    | click s =>
      rw [List.cons_append]
      simp only [staleFree, snapCount]
      rw [ih cur, Bool.and_assoc]

/-- The events of one item's processing are staleness-free when checked
from the state in which the cycle's feed snapshot (number `sidS`) is the
latest capture: the first click uses a handle from that snapshot, and
the second click, when reached, uses a handle from the mid-cycle
snapshot captured just before it. -/
theorem staleFree_procEvents (env : Env) (c : Nat) (t : Tweet) (sidS : Nat) :
    staleFree (procEvents env c t sidS) sidS = true := by
  rw [procEvents]
  by_cases hr : isRepost t = true
  · rw [if_pos hr]
    cases hfind : findUnretweetButton (env.feed c) t with
    | error e => simp [staleFree]
    | ok o =>
      cases o with
      | none => simp [staleFree]
      | some u =>
        by_cases hA : env.clickA c = true
        · rw [if_pos hA]
          cases hconf : findUnretweetConfirmButton (env.menu c) with
          | error e2 => simp [staleFree]
          | ok o2 =>
            cases o2 with
            | none => simp [staleFree]
            | some u2 => simp [staleFree]
        · rw [if_neg hA]
          simp [staleFree]
  · rw [if_neg hr]
    cases hfind : findMoreButtonInTweet (env.feed c) t with
    | error e => simp [staleFree]
    | ok o =>
      cases o with
      | none => simp [staleFree]
      | some u =>
        by_cases hA : env.clickA c = true
        · rw [if_pos hA]
          cases hdel : findDeleteButton (env.menu c) with
          | error e2 => simp [staleFree]
          | ok o2 =>
            cases o2 with
            | none => simp [staleFree]
            | some u2 => simp [staleFree]
        · rw [if_neg hA]
          simp [staleFree]

/-- Every trace of the `deleteContent` loop passes the staleness check
from any starting snapshot count. -/
theorem runTrace_staleFree (env : Env) :
    ∀ (fuel c sid e : Nat), staleFree (runTrace env fuel c sid e) sid = true := by
  intro fuel
  induction fuel with
  | zero => intro c sid e; rfl
  | succ fuel ih =>
    intro c sid e
    rw [runTrace_succ]
    show staleFree (Ev.snap :: _) sid = true
    rw [staleFree]
    cases hfind : findTweetElements (env.feed c) with
    | error e2 => simp [staleFree]
    | ok ts =>
      cases ts with
      | nil =>
        by_cases hstop : MAX_EMPTY_ATTEMPTS ≤ e + 1
        · simp [hstop, staleFree]
        · simp only [hstop, if_false]
          exact ih (c + 1) (sid + 1) (e + 1)
      | cons t rest =>
        simp only []
        rw [staleFree_append]
        rw [staleFree_procEvents]
        rw [Bool.true_and]
        exact ih (c + 1) (sid + 1 + snapCount (procEvents env c t (sid + 1))) 0

/-- C5 as amended: in every execution of the `deleteContent` control
loop — any feed, any fuel, any pattern of host-call failures — no click
ever uses a handle extracted from a snapshot older than the latest
capture: exactly one candidate (the first) of each interpreted snapshot
is acted on, and the second click of a cycle uses the freshly captured
mid-cycle snapshot. -/
theorem deleteContent_no_stale_handle_use (env : Env) (fuel : Nat) :
    staleFree (runTrace env fuel 0 0 0) 0 = true :=
  runTrace_staleFree env fuel 0 0 0

/-- C5 counterexample: the skill document's `deleteTweets` pseudocode
iterates over every tweet of a single snapshot; already with two tweets
in the first scan cycle its trace clicks a handle from the feed snapshot
after the first item's menu snapshot has been captured, failing the
staleness check. -/
theorem deleteTweets_pseudocode_reuses_stale_handle :
    staleFree (deleteTweetsTrace (fun c => if c = 0 then 2 else 0) 2 0 0) 0 = false := by
  decide

/-! ## C10: each follower is checked at most once -/

/-- The checked-username sequence of the follower loop never revisits the
incoming processed set and contains no duplicates: every processed
username is inserted into the set before its check, and later scans
filter it out. -/
theorem followerRun_processed_invariant (scan : Nat → List String) :
    ∀ (fuel c : Nat) (processed : List String) (e : Nat),
      (followerRun scan fuel c processed e).Nodup ∧
        ∀ u ∈ followerRun scan fuel c processed e, processed.contains u = false := by
  intro fuel
  induction fuel with
  | zero =>
    intro c processed e
    exact ⟨List.nodup_nil, by intro u hu; simp [followerRun] at hu⟩
  | succ fuel ih =>
    intro c processed e
    rw [followerRun]
    cases hm : (scan c).filter (fun u => !(processed.contains u)) with
    | nil =>
      by_cases hstop : MAX_EMPTY_ATTEMPTS ≤ e + 1
      · simp only [hstop, if_true]
        exact ⟨List.nodup_nil, by intro u hu; simp at hu⟩
      · simp only [hstop, if_false]
        exact ih (c + 1) processed (e + 1)
    | cons u rest =>
      have hu : processed.contains u = false := by
        have hmem : u ∈ (scan c).filter (fun v => !(processed.contains v)) := by
          rw [hm]; exact List.mem_cons_self u rest
        have hp := List.of_mem_filter hmem
        simpa using hp
      obtain ⟨htail, hmemtail⟩ := ih (c + 1) (u :: processed) 0
      constructor
      · refine List.nodup_cons.mpr ⟨?_, htail⟩
        intro hin
        have hcontra := hmemtail u hin
        simp [List.contains_cons] at hcontra
      · intro v hv
        rcases List.mem_cons.mp hv with h1 | h2
        · subst h1; exact hu
        · have hcontra := hmemtail v h2
          rw [List.contains_cons] at hcontra
          simp only [Bool.or_eq_false_iff] at hcontra
          exact hcontra.2

/-- The `seen`-set filter keeps no username already seen and yields no
duplicates. -/
theorem dedupScan_invariant :
    ∀ (us seen : List String),
      (dedupScan us seen).Nodup ∧
        ∀ u ∈ dedupScan us seen, seen.contains u = false := by
  intro us
  induction us with
  | nil =>
    intro seen
    exact ⟨List.nodup_nil, by intro u hu; simp [dedupScan] at hu⟩
  | cons u rest ih =>
    intro seen
    rw [dedupScan]
    by_cases hc : seen.contains u = true
    · simp only [hc, if_true]
      exact ih seen
    · have hc' : seen.contains u = false := by
        cases hcc : seen.contains u
        · rfl
        · exact absurd hcc hc
      simp only [hc', if_false]
      obtain ⟨htail, hmemtail⟩ := ih (u :: seen)
      constructor
      · refine List.nodup_cons.mpr ⟨?_, htail⟩
        intro hin
        have hcontra := hmemtail u hin
        simp [List.contains_cons] at hcontra
      · intro v hv
        rcases List.mem_cons.mp hv with h1 | h2
        · subst h1; exact hc'
        · have hcontra := hmemtail v h2
          rw [List.contains_cons] at hcontra
          simp only [Bool.or_eq_false_iff] at hcontra
          exact hcontra.2

/-- C10 as amended: within a single follower-removal run each username
is checked at most once — the sequence of checked usernames has no
duplicates, because a username enters `processedUsernames` before its
check and later scans filter it out — and the part_001
`getFollowerElements` additionally deduplicates its per-scan list.  (The
src variant's per-scan list may carry duplicates; see the
counterexample.) -/
theorem followerRun_checks_each_username_once :
    (∀ (scan : Nat → List String) (fuel : Nat),
      (followerRun scan fuel 0 [] 0).Nodup) ∧
    (∀ cells : List (Option String), (getFollowerElementsPop cells).Nodup) := by
  constructor
  · intro scan fuel
    exact (followerRun_processed_invariant scan fuel 0 [] 0).1
  · intro cells
    exact (dedupScan_invariant _ []).1

/-- C10 counterexample: the `getFollowerElements` of
src/remove-inactive-followers.js performs no deduplication, so a page
presenting the same profile link in two cells yields a per-scan
candidate list with two entries for one username. -/
theorem getFollowerElements_allows_duplicates :
    getFollowerElements [some "/alice", some "/alice"] = ["alice", "alice"] ∧
    ¬ (getFollowerElements [some "/alice", some "/alice"]).Nodup := by
  refine ⟨by rfl, by decide⟩

end TweetDeleter
